import Mathlib

/-!
Verification development for the fish-store dashboard core
(dataset loader, filter engine, aggregation library of src/app.py).

The tabular code is shallowly embedded: a pandas DataFrame row becomes a
Lean structure, boolean masks become Bool-valued predicates, and the
pandas operations used by the dashboard (filtering with `isin` and a
day-granularity date range, `groupby`/`sum`/`mean`, `nlargest`,
`value_counts`, `resample`, `describe`, and the CSV loader) become
executable Lean functions with the same observable behaviour.
Numeric cells are modelled as rationals (pandas uses float64; none of
the verified properties depends on rounding), with missing numeric and
datetime cells modelled as `none`.
-/

namespace FishStore

/-- A calendar date (year, month, day). The dashboard filters compare
dates at calendar-day granularity via `DatetimeIndex.date`. -/
structure Date where
  year : Nat
  month : Nat
  day : Nat
  deriving DecidableEq

/-- A pandas timestamp: a calendar date plus a time-of-day component.
The time-of-day is ignored by the day-granularity date filter. -/
structure Timestamp where
  date : Date
  tod : Nat
  deriving DecidableEq

/-- Day-granularity comparison of calendar dates, lexicographic on
(year, month, day), as `datetime.date` ordering behaves. -/
def Date.le (a b : Date) : Bool :=
  decide (a.year < b.year)
    || (decide (a.year = b.year)
        && (decide (a.month < b.month)
            || (decide (a.month = b.month) && decide (a.day ≤ b.day))))

/-- One record of the Transaction Table, after loading: the CSV columns
of the fixed schema plus the derived `Profit` column. Category cells may
be missing (pandas NaN in an object column), modelled by `Option`. -/
structure Row where
  date : Timestamp
  dateOfSale : Timestamp
  restockDate : Timestamp
  fishType : Option String
  fishSize : Option String
  supplierInfo : Option String
  customerType : Option String
  customerLocation : Option String
  salesChannel : Option String
  quantitySold : ℚ
  totalSalesValue : ℚ
  totalSupplyCost : ℚ
  costPerUnitSupply : ℚ
  pricePerUnitSold : ℚ
  profit : ℚ
  deriving DecidableEq

/-- The sidebar filter state: a date interval and the two multiselect
value lists. The multiselect options come from `Series.unique()`, which
enumerates a missing value (NaN) as well, so an allowed entry may be
`none`. -/
structure FilterSelection where
  dateStart : Date
  dateEnd : Date
  allowedFishTypes : List (Option String)
  allowedSuppliers : List (Option String)

/-- The four boolean masks of app.py lines 44-47 combined with `&`:
`df.index.date >= date_range[0]`, `df.index.date <= date_range[1]`,
`df[Fish Type].isin(fish_type_filter)`,
`df[Supplier Information].isin(supplier_filter)`.
pandas `isin` treats NaN as equal to NaN, so membership is plain list
membership over `Option String`. -/
def rowPasses (sel : FilterSelection) (r : Row) : Bool :=
  Date.le sel.dateStart r.date.date
    && Date.le r.date.date sel.dateEnd
    && sel.allowedFishTypes.contains r.fishType
    && sel.allowedSuppliers.contains r.supplierInfo

/-- `filtered_df = df[mask]`: boolean-mask row selection keeps exactly
the rows whose mask is true, in their original order. -/
def filtered_df (t : List Row) (sel : FilterSelection) : List Row :=
  t.filter (rowPasses sel)

/-- `Series.unique()`: the distinct values of a column in order of first
appearance, a missing value (NaN) included. -/
def firstSeenUniques {α : Type} [DecidableEq α] (l : List α) : List α :=
  l.foldl (fun acc v => if acc.contains v then acc else acc ++ [v]) []

/-- Helper to build concrete transaction rows for test tables. The
profit cell is passed explicitly (400 for sales 1000, cost 600, say) so
that concrete tables contain only rational literals. -/
def mkRow (d : Date) (ft sup : Option String) (q sales cost pft : ℚ) : Row :=
  { date := ⟨d, 0⟩
  , dateOfSale := ⟨d, 0⟩
  , restockDate := ⟨d, 0⟩
  , fishType := ft
  , fishSize := some "Medium"
  , supplierInfo := sup
  , customerType := some "Retail"
  , customerLocation := some "Lagos"
  , salesChannel := some "Online"
  , quantitySold := q
  , totalSalesValue := sales
  , totalSupplyCost := cost
  , costPerUnitSupply := 1
  , pricePerUnitSold := 1
  , profit := pft }

/-- A concrete date used by the test tables. -/
def d0 : Date := ⟨2024, 1, 5⟩

/-- A row whose `Fish Type` cell is missing (NaN). -/
def rowNullFish : Row := mkRow d0 none (some "A") 10 1000 600 400

/-- A one-row table containing the null-`Fish Type` row. -/
def tbl5 : List Row := [rowNullFish]

/-- The selection whose allowed sets are exactly the category values
observed at load time (`unique()` of each column, NaN included). -/
def sel5 : FilterSelection :=
  ⟨d0, d0, firstSeenUniques (tbl5.map Row.fishType),
    firstSeenUniques (tbl5.map Row.supplierInfo)⟩

/-- A narrower selection for the null-row: only non-null fish types. -/
def sel5w : FilterSelection := ⟨d0, d0, [some "Tilapia"], [some "A"]⟩

-- ------------------------------------------------------------------
-- Aggregation library (groupby, top-N, value counts, resample,
-- describe), modelling the pandas operations used by the dashboard
-- ------------------------------------------------------------------

/-- Distinct non-null keys of a grouping column, in ascending key
order: `groupby` (with its default `sort=True` and `dropna=True`)
groups by the distinct non-missing values sorted ascending. -/
def uniqueKeys (t : List Row) (key : Row → Option String) : List String :=
  List.insertionSort (· ≤ ·) (t.filterMap key).dedup

/-- The rows belonging to one group. -/
def groupRows (t : List Row) (key : Row → Option String) (k : String) : List Row :=
  t.filter (fun r => key r == some k)

/-- `df.groupby(col)[val].sum()`: per-group sum, groups in ascending
key order, missing keys dropped. -/
def groupby_sum (t : List Row) (key : Row → Option String) (f : Row → ℚ) :
    List (String × ℚ) :=
  (uniqueKeys t key).map (fun k => (k, ((groupRows t key k).map f).sum))

/-- Arithmetic mean of a list of rationals (0 on the empty list; only
applied to nonempty groups below). -/
def listMean (l : List ℚ) : ℚ := l.sum / l.length

/-- `df.groupby(col)[val].mean()`: per-group mean, groups in ascending
key order; every group is nonempty by construction. -/
def groupby_mean (t : List Row) (key : Row → Option String) (f : Row → ℚ) :
    List (String × ℚ) :=
  (uniqueKeys t key).map (fun k => (k, listMean ((groupRows t key k).map f)))

/-- Lexicographic order on two-level group keys, the order pandas uses
for a two-column `groupby`. -/
def pairKeyLe (a b : String × String) : Prop :=
  a.1 < b.1 ∨ (a.1 = b.1 ∧ a.2 ≤ b.2)

instance : DecidableRel pairKeyLe := fun a b =>
  inferInstanceAs (Decidable (a.1 < b.1 ∨ (a.1 = b.1 ∧ a.2 ≤ b.2)))

/-- Distinct two-level keys in ascending lexicographic order; a row
with either key missing is dropped, as `groupby` on two columns does. -/
def uniquePairKeys (t : List Row) (key : Row → Option (String × String)) :
    List (String × String) :=
  List.insertionSort pairKeyLe (t.filterMap key).dedup

/-- `df.groupby([colA, colB])[val].sum()`: two-level grouping with a
per-pair sum, pairs in ascending lexicographic order. -/
def groupby2_sum (t : List Row) (key : Row → Option (String × String))
    (f : Row → ℚ) : List ((String × String) × ℚ) :=
  (uniquePairKeys t key).map
    (fun k => (k, ((t.filter (fun r => key r == some k)).map f).sum))

/-- Sort order used by `Series.nlargest` with its default
`keep=first`: descending by value, and stable, so entries with equal
values keep their order in the input series. -/
def valGe (a b : String × ℚ) : Prop := b.2 ≤ a.2

instance : DecidableRel valGe := fun a b => inferInstanceAs (Decidable (b.2 ≤ a.2))

/-- Stable descending-by-value sort of a keyed series
(`sort_values(ascending=False, kind=stable)`, as `nlargest` orders). -/
def sortValsDesc (l : List (String × ℚ)) : List (String × ℚ) :=
  List.insertionSort valGe l

/-- `Series.nlargest(n)`: the n largest entries, descending by value,
ties resolved toward earlier positions of the input series. -/
def nlargest (n : Nat) (l : List (String × ℚ)) : List (String × ℚ) :=
  (sortValsDesc l).take n

/-- `df.groupby(col)[val].sum().nlargest(n)`, the top-N aggregation. -/
def top_n (n : Nat) (t : List Row) (key : Row → Option String)
    (f : Row → ℚ) : List (String × ℚ) :=
  nlargest n (groupby_sum t key f)

/-- Descending order on counted values, for `value_counts`. -/
def countGe (a b : String × Nat) : Prop := b.2 ≤ a.2

instance : DecidableRel countGe := fun a b => inferInstanceAs (Decidable (b.2 ≤ a.2))

/-- `Series.value_counts()`: occurrence counts of the non-missing
values, sorted by descending count. The relative order of values with
equal counts is an implementation artifact of the pandas sort and is
not relied on by any claim; the model uses a stable sort over the
first-seen value order. -/
def value_counts (t : List Row) (key : Row → Option String) : List (String × Nat) :=
  List.insertionSort countGe
    ((firstSeenUniques (t.filterMap key)).map
      (fun k => (k, (groupRows t key k).length)))

/-- Index of the calendar month of a timestamp on a single linear
scale, so that consecutive calendar months have consecutive indices
(the monthly bucket key of `resample('M')`). -/
def monthIdx (ts : Timestamp) : Nat := ts.date.year * 12 + (ts.date.month - 1)

/-- The yearly bucket key of `resample('A')`. -/
def yearIdx (ts : Timestamp) : Nat := ts.date.year

/-- Consecutive bucket keys `lo, lo+1, ..., lo+n-1`, the regular
calendar-period axis a resample produces from its first to its last
bucket. -/
def rangeFrom (lo : Nat) : Nat → List Nat
  | 0 => []
  | n + 1 => lo :: rangeFrom (lo + 1) n

/-- `series.resample(freq).agg()`: buckets anchored to calendar
periods, one entry for EVERY period between the earliest and the
latest row (pandas emits empty intermediate bins rather than skipping
them), each aggregated over the rows of that period; the empty series
resamples to the empty series. -/
def resampleBy {α : Type} (idxOf : Row → Nat) (agg : List ℚ → α)
    (f : Row → ℚ) : List Row → List (Nat × α)
  | [] => []
  | r :: rs =>
    let lo := ((r :: rs).map (fun x => idxOf x)).foldl min (idxOf r)
    let hi := ((r :: rs).map (fun x => idxOf x)).foldl max (idxOf r)
    (rangeFrom lo (hi + 1 - lo)).map
      (fun m => (m, agg (((r :: rs).filter (fun x => idxOf x == m)).map f)))

/-- Bucket aggregation by sum: the sum of an empty bin is 0, as for
pandas `sum` with its default `min_count=0`. -/
def aggSum (l : List ℚ) : ℚ := l.sum

/-- Bucket aggregation by mean: the mean of an empty bin is NaN,
modelled as `none`. -/
def aggMean (l : List ℚ) : Option ℚ :=
  if l.length = 0 then none else some (listMean l)

/-- `series.resample('M').sum()`. -/
def resample_M_sum (f : Row → ℚ) (t : List Row) : List (Nat × ℚ) :=
  resampleBy (fun r => monthIdx r.date) aggSum f t

/-- `series.resample('A').mean()`. -/
def resample_A_mean (f : Row → ℚ) (t : List Row) : List (Nat × Option ℚ) :=
  resampleBy (fun r => yearIdx r.date) aggMean f t

/-- The summary statistics `describe` computes per numeric column.
The standard deviation is represented by its square, the sample
variance (ddof=1), to stay inside the rationals; it is defined exactly
when the standard deviation is (at least two values). Undefined
statistics (NaN) are `none`. -/
structure ColStats where
  count : Nat
  mean : Option ℚ
  variance : Option ℚ
  min : Option ℚ
  q25 : Option ℚ
  q50 : Option ℚ
  q75 : Option ℚ
  max : Option ℚ
  deriving DecidableEq

/-- Values of a column sorted ascending. -/
def sortedVals (l : List ℚ) : List ℚ := List.insertionSort (· ≤ ·) l

/-- Linear-interpolation quantile of a list (`Series.quantile` with
the default interpolation), `none` on the empty list. -/
def quantile (l : List ℚ) (p : ℚ) : Option ℚ :=
  match sortedVals l with
  | [] => none
  | s =>
    let h : ℚ := p * ((s.length : ℚ) - 1)
    let i : Nat := (⌊h⌋).toNat
    some ((s.getD i 0) + (h - (i : ℚ)) * (s.getD (i + 1) (s.getD i 0) - s.getD i 0))

/-- Summary statistics of one numeric column, count 0 and all
statistics undefined on an empty column. -/
def colStats (l : List ℚ) : ColStats :=
  { count := l.length
  , mean := if l.length = 0 then none else some (listMean l)
  , variance := if 2 ≤ l.length then
      some ((l.map (fun x => (x - listMean l) ^ 2)).sum / ((l.length : ℚ) - 1))
    else none
  , min := (sortedVals l).head?
  , q25 := quantile l (1 / 4)
  , q50 := quantile l (1 / 2)
  , q75 := quantile l (3 / 4)
  , max := (sortedVals l).getLast? }

/-- The numeric columns of the Transaction Table, Profit included, in
schema order: the columns `df.describe()` summarizes. -/
def numericColumns : List (String × (Row → ℚ)) :=
  [ ("Quantity Sold (kg)", Row.quantitySold)
  , ("Total Sales Value (NGN)", Row.totalSalesValue)
  , ("Total Supply Cost (NGN)", Row.totalSupplyCost)
  , ("Cost per Unit Supply (NGN)", Row.costPerUnitSupply)
  , ("Price per Unit Sold (NGN)", Row.pricePerUnitSold)
  , ("Profit", Row.profit) ]

/-- `df.describe()`: per numeric column, its summary statistics. On a
table with no rows this still produces one entry per numeric column
(count 0, all statistics NaN), not an empty table. -/
def describe (t : List Row) : List (String × ColStats) :=
  numericColumns.map (fun c => (c.1, colStats (t.map c.2)))

/-- Two-level key of the location-by-channel chart. -/
def pairLocChannel (r : Row) : Option (String × String) :=
  match r.customerLocation, r.salesChannel with
  | some a, some b => some (a, b)
  | _, _ => none

/-- app.py line 128: quantity sold by fish type. -/
def product_type_freq (t : List Row) : List (String × ℚ) :=
  groupby_sum t Row.fishType Row.quantitySold

/-- app.py line 135: quantity sold by fish size. -/
def fish_size_freq (t : List Row) : List (String × ℚ) :=
  groupby_sum t Row.fishSize Row.quantitySold

/-- app.py line 143: top 5 fish types by total revenue. -/
def top_revenue (t : List Row) : List (String × ℚ) :=
  top_n 5 t Row.fishType Row.totalSalesValue

/-- app.py line 154: profit by supplier. -/
def supplier_profit (t : List Row) : List (String × ℚ) :=
  groupby_sum t Row.supplierInfo Row.profit

/-- app.py line 161: quantity sold by supplier. -/
def supplier_quantity (t : List Row) : List (String × ℚ) :=
  groupby_sum t Row.supplierInfo Row.quantitySold

/-- app.py line 169: average profit per transaction by supplier. -/
def avg_profit (t : List Row) : List (String × ℚ) :=
  groupby_mean t Row.supplierInfo Row.profit

/-- app.py line 180: profit by customer type. -/
def customer_profit (t : List Row) : List (String × ℚ) :=
  groupby_sum t Row.customerType Row.profit

/-- app.py line 187: quantity sold by location and sales channel. -/
def sales_channel (t : List Row) : List ((String × String) × ℚ) :=
  groupby2_sum t pairLocChannel Row.quantitySold

/-- app.py line 80: proportion chart source, fish type counts. -/
def fish_type_counts (t : List Row) : List (String × Nat) :=
  value_counts t Row.fishType

/-- app.py line 195: total sales by customer location. -/
def total_sales_location (t : List Row) : List (String × ℚ) :=
  groupby_sum t Row.customerLocation Row.totalSalesValue

-- ------------------------------------------------------------------
-- Boolean order checks used in claim statements
-- ------------------------------------------------------------------

/-- Boolean check that adjacent elements of a list are related. -/
def chainB {α : Type} (p : α → α → Bool) : List α → Bool
  | [] => true
  | [_] => true
  | a :: b :: rest => p a b && chainB p (b :: rest)

/-- Adjacent group keys ascend. -/
def keyLeB (a b : String × ℚ) : Bool := decide (a.1 ≤ b.1)

/-- Adjacent two-level group keys ascend lexicographically. -/
def pairKeyLeB (a b : (String × String) × ℚ) : Bool := decide (pairKeyLe a.1 b.1)

/-- Descending by value with ties in ascending key order. -/
def qOrdB (a b : String × ℚ) : Bool :=
  decide (b.2 < a.2) || (decide (a.2 = b.2) && decide (a.1 ≤ b.1))

/-- The total order behind `qOrdB`. -/
def qOrd (a b : String × ℚ) : Prop :=
  b.2 < a.2 ∨ (a.2 = b.2 ∧ a.1 ≤ b.1)

/-- Adjacent bucket keys are consecutive. -/
def succB (a b : Nat) : Bool := b == a + 1

-- ------------------------------------------------------------------
-- Concrete tables for counterexamples and witnesses
-- ------------------------------------------------------------------

/-- Rows in January and March 2024 with no February row between. -/
def tbl3 : List Row :=
  [ mkRow ⟨2024, 1, 5⟩ (some "Tilapia") (some "A") 1 1000 600 400
  , mkRow ⟨2024, 3, 10⟩ (some "Catfish") (some "B") 1 500 300 200 ]

/-- Two fish types with equal summed revenue, "B" appearing first. -/
def tbl6 : List Row :=
  [ mkRow ⟨2024, 1, 5⟩ (some "B") (some "S") 1 900 0 900
  , mkRow ⟨2024, 1, 6⟩ (some "A") (some "S") 1 900 0 900 ]

/-- Three fish types with sums 900, 100 (distinct), for the top-N
witness. -/
def tbl6w : List Row :=
  [ mkRow ⟨2024, 1, 5⟩ (some "A") (some "S") 1 900 0 900
  , mkRow ⟨2024, 1, 6⟩ (some "B") (some "S") 1 100 0 100 ]

/-- A wide selection containing the narrow one below. -/
def sel7a : FilterSelection :=
  ⟨⟨2024, 1, 1⟩, ⟨2024, 12, 31⟩, [some "Tilapia", none], [some "A"]⟩

/-- A selection with a narrower date interval than `sel7a` and the
same category sets. -/
def sel7b : FilterSelection :=
  ⟨⟨2024, 1, 5⟩, ⟨2024, 6, 30⟩, [some "Tilapia", none], [some "A"]⟩

-- ------------------------------------------------------------------
-- Dataset loader (load_data of app.py lines 10-19): pd.read_csv with
-- parse_dates on three columns, the derived Profit column, and
-- set_index on Date, under st.cache_data memoization.
-- ------------------------------------------------------------------

/-- Split a character list at every occurrence of a separator. -/
def splitOnChar (sep : Char) : List Char → List (List Char)
  | [] => [[]]
  | c :: cs =>
    if c = sep then [] :: splitOnChar sep cs
    else
      match splitOnChar sep cs with
      | [] => [[c]]
      | g :: gs => (c :: g) :: gs

/-- The value of a decimal digit, none on any other character. -/
def digitVal (c : Char) : Option Nat :=
  if c.isDigit then some (c.toNat - 48) else none

/-- Accumulate a decimal number over characters, none on a non-digit. -/
def natOfCharsAux (acc : Nat) : List Char → Option Nat
  | [] => some acc
  | c :: cs =>
    match digitVal c with
    | some d => natOfCharsAux (acc * 10 + d) cs
    | none => none

/-- Parse a nonempty all-digit character list as a natural number. -/
def natOfChars : List Char → Option Nat
  | [] => none
  | cs => natOfCharsAux 0 cs

/-- Lexical model of `pd.to_datetime` for an ISO `YYYY-MM-DD` cell:
three dash-separated digit groups with month 1..12 and day 1..31 parse
to a calendar date, and anything else is unparseable. Month-specific
day counts and time-of-day components are not modelled; no verified
claim depends on them. -/
def parseDate (s : String) : Option Date :=
  match splitOnChar '-' s.data with
  | [y, m, d] =>
    match natOfChars y, natOfChars m, natOfChars d with
    | some yn, some mn, some dn =>
      if 1 ≤ mn ∧ mn ≤ 12 ∧ 1 ≤ dn ∧ dn ≤ 31 then some ⟨yn, mn, dn⟩ else none
    | _, _, _ => none
  | _ => none

/-- Parse an unsigned decimal numeral, with an optional fraction part. -/
def parseRatNoSign (cs : List Char) : Option ℚ :=
  match splitOnChar '.' cs with
  | [ip] => (natOfChars ip).map (fun n => (n : ℚ))
  | [ip, fp] =>
    match natOfChars ip, natOfChars fp with
    | some i, some f => some ((i : ℚ) + (f : ℚ) / ((10 : ℚ) ^ fp.length))
    | _, _ => none
  | _ => none

/-- Lexical model of the pandas numeric-cell reader: an optional minus
sign followed by a decimal numeral. -/
def parseRat (s : String) : Option ℚ :=
  match s.data with
  | '-' :: rest => (parseRatNoSign rest).map (fun q => -q)
  | cs => parseRatNoSign cs

/-- A date cell: empty parses to a missing value (NaT), otherwise it
must parse as a date for the whole-column conversion to succeed. -/
def parseDateCell (s : String) : Option (Option Date) :=
  if s = "" then some none else (parseDate s).map some

/-- A numeric cell: empty reads as missing (NaN), otherwise it must be
numeric for the column to infer a numeric dtype. -/
def parseNumCell (s : String) : Option (Option ℚ) :=
  if s = "" then some none else (parseRat s).map some

/-- A loaded column: a datetime column (with possible NaT entries), a
numeric column (with possible NaN entries), or an object column whose
cells stayed raw strings. -/
inductive Col where
  | dates (vs : List (Option Date))
  | nums (vs : List (Option ℚ))
  | strs (vs : List String)
  deriving DecidableEq

/-- Raw CSV content after field splitting: a header line of column
names and the data rows (duplicate header names, which pandas would
mangle, are not modelled). -/
structure RawCSV where
  header : List String
  rows : List (List String)
  deriving DecidableEq

/-- Position of the first occurrence of a name in the header. -/
def idxOf (n : String) : List String → Option Nat
  | [] => none
  | h :: t => if h = n then some 0 else (idxOf n t).map (fun i => i + 1)

/-- Index of a named column of the CSV. -/
def colIdx (csv : RawCSV) (n : String) : Option Nat := idxOf n csv.header

/-- Whether the CSV has a column of the given name. -/
def hasCol (csv : RawCSV) (n : String) : Bool := (colIdx csv n).isSome

/-- The cells of a named column, in file order (a short row reads as
empty cells). -/
def colCells (csv : RawCSV) (n : String) : List String :=
  match colIdx csv n with
  | some i => csv.rows.map (fun row => row.getD i "")
  | none => []

/-- The columns handed to `parse_dates` in load_data. -/
def dateColNames : List String := ["Date", "Date of Sale", "Restock Date"]

/-- The minuend column of the Profit computation. -/
def salesColName : String := "Total Sales Value (NGN)"

/-- The subtrahend column of the Profit computation. -/
def costColName : String := "Total Supply Cost (NGN)"

/-- A `parse_dates` column: the whole column converts when every cell
parses (empty cells become NaT); otherwise pandas returns the column
unaltered as object (raw strings) WITHOUT raising. -/
def parseDatesCol (cells : List String) : Col :=
  match cells.mapM parseDateCell with
  | some vs => Col.dates vs
  | none => Col.strs cells

/-- Dtype inference for an ordinary column: numeric when every cell is
numeric or empty, otherwise an object column of raw strings. -/
def parseCol (cells : List String) : Col :=
  match cells.mapM parseNumCell with
  | some vs => Col.nums vs
  | none => Col.strs cells

/-- The parsed column for a header name. -/
def buildColFor (csv : RawCSV) (n : String) : Col :=
  if dateColNames.contains n then parseDatesCol (colCells csv n)
  else parseCol (colCells csv n)

/-- All parsed columns of the CSV, keyed by name, in header order. -/
def buildCols (csv : RawCSV) : List (String × Col) :=
  csv.header.map (fun n => (n, buildColFor csv n))

/-- The failure modes of load_data: `pd.read_csv` raises a ValueError
when a `parse_dates` column is absent, and the Profit computation
raises a KeyError for an absent money column or a TypeError when
subtracting an object (non-numeric) column. The try/except reports
the exception as a readable message and yields no table. -/
inductive LoadError where
  | missingDateColumn (name : String)
  | missingColumn (name : String)
  | nonNumericColumn (name : String)
  deriving DecidableEq

/-- The human-readable message st.error displays for a load failure. -/
def LoadError.message : LoadError → String
  | .missingDateColumn n =>
      "Error loading dataset: Missing column provided to parse_dates: " ++ n
  | .missingColumn n => "Error loading dataset: KeyError: " ++ n
  | .nonNumericColumn n =>
      "Error loading dataset: unsupported operand type in column " ++ n

/-- The loaded DataFrame: the Date column moved to the index, the
remaining columns (Profit included) keyed by name. -/
structure LoadedTable where
  index : Col
  cols : List (String × Col)
  deriving DecidableEq

/-- Column lookup by name (`df[name]`). -/
def findCol (cols : List (String × Col)) (n : String) : Option Col :=
  (cols.find? (fun c => c.1 == n)).map (fun c => c.2)

/-- Elementwise float subtraction: NaN propagates. -/
def subNaN (a b : Option ℚ) : Option ℚ :=
  match a, b with
  | some x, some y => some (x - y)
  | _, _ => none

/-- `df[Profit] = ...`: overwrite an existing Profit column in place,
else append it as the last column. -/
def setProfit (cols : List (String × Col)) (p : Col) : List (String × Col) :=
  if cols.any (fun c => c.1 == "Profit") then
    cols.map (fun c => if c.1 == "Profit" then ("Profit", p) else c)
  else cols ++ [("Profit", p)]

/-- load_data: read the CSV with `parse_dates` on the three date
columns (failing only when one of those columns is absent; an
unparseable date cell silently leaves its column as strings), derive
`Profit` as the sales column minus the cost column (failing when a
money column is absent or non-numeric), and move `Date` to the index.
Any failure is reported as an error value, never as a partial table. -/
def load_data (csv : RawCSV) : Except LoadError LoadedTable :=
  match dateColNames.find? (fun n => !(hasCol csv n)) with
  | some n => .error (.missingDateColumn n)
  | none =>
    match findCol (buildCols csv) salesColName with
    | none => .error (.missingColumn salesColName)
    | some sCol =>
      match findCol (buildCols csv) costColName with
      | none => .error (.missingColumn costColName)
      | some cCol =>
        match sCol, cCol with
        | Col.nums sv, Col.nums cv =>
          .ok ⟨(findCol (buildCols csv) "Date").getD (Col.strs []),
            setProfit ((buildCols csv).filter (fun c => !(c.1 == "Date")))
              (Col.nums (List.zipWith subNaN sv cv))⟩
        | Col.nums _, _ => .error (.nonNumericColumn costColName)
        | _, _ => .error (.nonNumericColumn salesColName)

/-- The st.cache_data memo table: loaded results keyed by content. -/
abbrev LoadCache : Type := List (RawCSV × Except LoadError LoadedTable)

/-- A load through the cache: a hit returns the stored result and
leaves the cache as is; a miss computes and appends, never touching
existing entries. -/
def cached_load (cache : LoadCache) (csv : RawCSV) :
    Except LoadError LoadedTable × LoadCache :=
  match cache.find? (fun e => e.1 == csv) with
  | some e => (e.2, cache)
  | none => (load_data csv, cache ++ [(csv, load_data csv)])

/-- Whether a column parsed as numeric. -/
def isNumsCol : Col → Bool
  | Col.nums _ => true
  | _ => false

/-- The exact conditions under which load_data fails: a missing
`parse_dates` column, or a missing or non-numeric money column. -/
def loadFails (csv : RawCSV) : Bool :=
  dateColNames.any (fun n => !(hasCol csv n))
    || !(hasCol csv salesColName)
    || !(hasCol csv costColName)
    || !(isNumsCol (buildColFor csv salesColName))
    || !(isNumsCol (buildColFor csv costColName))

/-- Whether a load attempt produced a table. -/
def isOkB {ε α : Type} : Except ε α → Bool
  | .ok _ => true
  | .error _ => false

/-- Day-granularity comparison lifted to possibly-missing dates (a
missing entry does not break the comparison chain). -/
def optDateLe (a b : Option Date) : Bool :=
  match a, b with
  | some x, some y => Date.le x y
  | _, _ => true

/-- Modelled from the spec: "rows ordered by `Date` ascending". Checks
that the date index of a loaded table ascends; vacuously true when the
index is not a datetime column. -/
def dateIndexSortedAsc (t : LoadedTable) : Bool :=
  match t.index with
  | Col.dates vs => chainB optDateLe vs
  | _ => true

/-- The fixed header of the transaction CSV schema. -/
def csvHeader : List String :=
  [ "Date", "Date of Sale", "Restock Date", "Fish Type", "Fish Size"
  , "Supplier Information", "Customer Type", "Customer Location"
  , "Sales Channel", "Quantity Sold (kg)", "Total Sales Value (NGN)"
  , "Total Supply Cost (NGN)", "Cost per Unit Supply (NGN)"
  , "Price per Unit Sold (NGN)" ]

/-- One concrete CSV data row. -/
def csvRow (d ft q s c : String) : List String :=
  [d, d, d, ft, "Medium", "A", "Retail", "Lagos", "Online", q, s, c, "1", "1"]

/-- A well-formed CSV with two rows in date order. -/
def csv2 : RawCSV :=
  ⟨csvHeader, [ csvRow "2024-01-05" "Tilapia" "10" "1000" "600"
              , csvRow "2024-02-10" "Catfish" "5" "500" "300" ]⟩

/-- The table loaded from `csv2`. -/
def tbl2 : LoadedTable := (load_data csv2).toOption.getD ⟨Col.strs [], []⟩

/-- A well-formed CSV whose rows are NOT in ascending date order. -/
def csv4 : RawCSV :=
  ⟨csvHeader, [ csvRow "2024-02-10" "Catfish" "5" "500" "300"
              , csvRow "2024-01-05" "Tilapia" "10" "1000" "600" ]⟩

/-- The table loaded from `csv4`. -/
def tbl4 : LoadedTable := (load_data csv4).toOption.getD ⟨Col.strs [], []⟩

/-- A CSV whose Date cell is unparseable as a date. -/
def csv9 : RawCSV := ⟨csvHeader, [csvRow "notadate" "Tilapia" "10" "1000" "600"]⟩

/-- The table loaded from `csv9` (the load succeeds). -/
def tbl9 : LoadedTable := (load_data csv9).toOption.getD ⟨Col.strs [], []⟩

/-- A CSV with no columns at all (every required column missing). -/
def csvEmpty : RawCSV := ⟨[], []⟩

/-- A cache entry remembering the failed load of the empty CSV. -/
def cacheEntry9 : RawCSV × Except LoadError LoadedTable :=
  (csvEmpty, load_data csvEmpty)

-- ------------------------------------------------------------------
-- Lemmas about the date order
-- ------------------------------------------------------------------

theorem Date.le_iff (a b : Date) :
    Date.le a b = true ↔
      (a.year < b.year ∨ (a.year = b.year ∧
        (a.month < b.month ∨ (a.month = b.month ∧ a.day ≤ b.day)))) := by
  simp [Date.le]

theorem Date.le_trans {a b c : Date}
    (h1 : Date.le a b = true) (h2 : Date.le b c = true) :
    Date.le a c = true := by
  rw [Date.le_iff] at h1 h2 ⊢
  omega

-- ------------------------------------------------------------------
-- Claim theorems: C1, C5, C7
-- ------------------------------------------------------------------

/-- Claim C1: for every table and every filter selection, `filtered_df`
returns exactly the rows (in source order, as a sublist) satisfying the
conjunction of the three predicates: the date of the row lies in the
inclusive day-granularity interval, the fish type is a member of the
allowed fish types, and the supplier is a member of the allowed
suppliers; a row failing any one predicate is excluded. -/
theorem c1_filter_conjunction (t : List Row) (sel : FilterSelection) :
    (filtered_df t sel).Sublist t ∧
    ∀ r : Row, r ∈ filtered_df t sel ↔
      (r ∈ t ∧ Date.le sel.dateStart r.date.date = true
        ∧ Date.le r.date.date sel.dateEnd = true
        ∧ r.fishType ∈ sel.allowedFishTypes
        ∧ r.supplierInfo ∈ sel.allowedSuppliers) := by
  constructor
  · exact List.filter_sublist t
  · intro r
    simp [filtered_df, List.mem_filter, rowPasses, Bool.and_eq_true,
      List.contains]
    tauto

/-- Claim C5 counterexample: a row with a missing `Fish Type` is NOT
excluded when the allowed set is the full set of category values
observed at load time, because `unique()` enumerates the missing value
and `isin` matches it; the one-row table survives the filter intact. -/
theorem c5_counterexample :
    Row.fishType rowNullFish = none ∧
    sel5.allowedFishTypes = firstSeenUniques (tbl5.map Row.fishType) ∧
    filtered_df tbl5 sel5 = tbl5 := by
  decide

/-- Claim C5 (amended): a row with a missing `Fish Type` (resp.
`Supplier Information`) is excluded by `filtered_df` whenever the
corresponding allowed set contains no missing entry; but the set of
values observed at load time does contain the missing value when one
occurs, and with that set the null row passes the filter. -/
theorem c5_null_excluded (t : List Row) (sel : FilterSelection) (r : Row)
    (h : (r.fishType = none ∧ sel.allowedFishTypes.contains none = false)
       ∨ (r.supplierInfo = none ∧ sel.allowedSuppliers.contains none = false)) :
    r ∉ filtered_df t sel := by
  intro hmem
  have hp : rowPasses sel r = true := (List.mem_filter.mp hmem).2
  simp [rowPasses, Bool.and_eq_true] at hp
  rcases h with ⟨hn, hc⟩ | ⟨hn, hc⟩
  · rw [hn] at hp
    simp [List.contains] at hc
    exact hc hp.1.2
  · rw [hn] at hp
    simp [List.contains] at hc
    exact hc hp.2

/-- Claim C5 witness: the null-fish-type row is excluded from a concrete
filter whose allowed fish types contain no missing entry. -/
theorem c5_null_excluded_witness : rowNullFish ∉ filtered_df tbl5 sel5w :=
  c5_null_excluded tbl5 sel5w rowNullFish (by decide)

/-- Pointwise implication between filters gives a length inequality. -/
theorem length_filter_mono {α : Type} (l : List α) (p q : α → Bool)
    (h : ∀ a, p a = true → q a = true) :
    (l.filter p).length ≤ (l.filter q).length := by
  induction l with
  | nil => simp
  | cons x xs ih =>
    by_cases hp : p x = true
    · have hq := h x hp
      simp [List.filter, hp, hq]
      omega
    · simp only [Bool.not_eq_true] at hp
      by_cases hq : q x = true
      · simp [List.filter, hp, hq]
        omega
      · simp only [Bool.not_eq_true] at hq
        simp [List.filter, hp, hq]
        exact ih

/-- Claim C7: the filter is monotone. Shrinking the date interval
(larger start or smaller end) or replacing either allowed set by a
subset never increases the number of rows returned by `filtered_df`. -/
theorem c7_filter_monotone (t : List Row) (s1 s2 : FilterSelection)
    (hs : Date.le s1.dateStart s2.dateStart = true)
    (he : Date.le s2.dateEnd s1.dateEnd = true)
    (hf : s2.allowedFishTypes ⊆ s1.allowedFishTypes)
    (hp : s2.allowedSuppliers ⊆ s1.allowedSuppliers) :
    (filtered_df t s2).length ≤ (filtered_df t s1).length := by
  apply length_filter_mono
  intro r hr
  simp [rowPasses, Bool.and_eq_true, List.contains] at hr ⊢
  obtain ⟨⟨⟨h1, h2⟩, h3⟩, h4⟩ := hr
  exact ⟨⟨⟨Date.le_trans hs h1, Date.le_trans h2 he⟩, hf h3⟩, hp h4⟩

/-- Claim C7 witness: narrowing the date interval of a concrete
selection does not increase the filtered row count. -/
theorem c7_filter_monotone_witness :
    (filtered_df tbl5 sel7b).length ≤ (filtered_df tbl5 sel7a).length :=
  c7_filter_monotone tbl5 sel7a sel7b (by decide) (by decide)
    (List.Subset.refl _) (List.Subset.refl _)

-- ------------------------------------------------------------------
-- Helper lemmas for the aggregation claims
-- ------------------------------------------------------------------

theorem chainB_of_pairwise {α : Type} (p : α → α → Bool) (l : List α)
    (h : l.Pairwise (fun a b => p a b = true)) : chainB p l = true := by
  induction l with
  | nil => rfl
  | cons x xs ih =>
    cases xs with
    | nil => rfl
    | cons y ys =>
      obtain ⟨hx, hxs⟩ := List.pairwise_cons.mp h
      simp only [chainB, Bool.and_eq_true]
      exact ⟨hx y (List.mem_cons_self y ys), ih hxs⟩

theorem foldl_min_le_init (l : List Nat) (a : Nat) : l.foldl min a ≤ a := by
  induction l generalizing a with
  | nil => simp
  | cons x xs ih => exact le_trans (ih (min a x)) (min_le_left a x)

theorem foldl_min_le_mem {l : List Nat} {x : Nat} (h : x ∈ l) (a : Nat) :
    l.foldl min a ≤ x := by
  induction l generalizing a with
  | nil => cases h
  | cons y ys ih =>
    rcases List.mem_cons.mp h with rfl | h2
    · exact le_trans (foldl_min_le_init ys (min a x)) (min_le_right a x)
    · exact ih h2 (min a y)

theorem init_le_foldl_max (l : List Nat) (a : Nat) : a ≤ l.foldl max a := by
  induction l generalizing a with
  | nil => simp
  | cons x xs ih => exact le_trans (le_max_left a x) (ih (max a x))

theorem mem_le_foldl_max {l : List Nat} {x : Nat} (h : x ∈ l) (a : Nat) :
    x ≤ l.foldl max a := by
  induction l generalizing a with
  | nil => cases h
  | cons y ys ih =>
    rcases List.mem_cons.mp h with rfl | h2
    · exact le_trans (le_max_right a x) (init_le_foldl_max ys (max a x))
    · exact ih h2 (max a y)

theorem mem_rangeFrom {m lo n : Nat} : m ∈ rangeFrom lo n ↔ lo ≤ m ∧ m < lo + n := by
  induction n generalizing lo with
  | zero => simp [rangeFrom]
  | succ k ih =>
    simp only [rangeFrom, List.mem_cons, ih]
    omega

theorem chainB_succ_rangeFrom (n lo : Nat) : chainB succB (rangeFrom lo n) = true := by
  induction n generalizing lo with
  | zero => rfl
  | succ k ih =>
    cases k with
    | zero => rfl
    | succ k2 =>
      simp only [rangeFrom, chainB, Bool.and_eq_true]
      refine ⟨by simp [succB], ?_⟩
      have := ih (lo + 1)
      simpa [rangeFrom] using this

theorem resampleBy_map_fst {α : Type} (idxOf : Row → Nat) (agg : List ℚ → α)
    (f : Row → ℚ) (r : Row) (rs : List Row) :
    (resampleBy idxOf agg f (r :: rs)).map Prod.fst =
      rangeFrom (((r :: rs).map (fun x => idxOf x)).foldl min (idxOf r))
        ((((r :: rs).map (fun x => idxOf x)).foldl max (idxOf r)) + 1 -
          (((r :: rs).map (fun x => idxOf x)).foldl min (idxOf r))) := by
  simp [resampleBy, List.map_map, Function.comp_def]

-- qOrd is transitive.
theorem qOrd_trans {a b c : String × ℚ} (h1 : qOrd a b) (h2 : qOrd b c) : qOrd a c := by
  rcases h1 with h1 | ⟨e1, k1⟩ <;> rcases h2 with h2 | ⟨e2, k2⟩
  · exact Or.inl (lt_trans h2 h1)
  · exact Or.inl (e2 ▸ h1)
  · exact Or.inl (e1 ▸ h2)
  · exact Or.inr ⟨e1.trans e2, k1.trans k2⟩

theorem qOrdB_eq_true_iff {a b : String × ℚ} : qOrdB a b = true ↔ qOrd a b := by
  simp [qOrdB, qOrd]

instance : IsTotal (String × ℚ) valGe := ⟨fun a b => le_total b.2 a.2⟩

instance : IsTrans (String × ℚ) valGe := ⟨fun _ _ _ h1 h2 => le_trans h2 h1⟩

instance : IsTotal (String × String) pairKeyLe := ⟨fun a b => by
  rcases lt_trichotomy a.1 b.1 with h | h | h
  · exact Or.inl (Or.inl h)
  · rcases le_total a.2 b.2 with h2 | h2
    · exact Or.inl (Or.inr ⟨h, h2⟩)
    · exact Or.inr (Or.inr ⟨h.symm, h2⟩)
  · exact Or.inr (Or.inl h)⟩

instance : IsTrans (String × String) pairKeyLe := ⟨fun a b c hab hbc => by
  rcases hab with h | ⟨e, h2⟩ <;> rcases hbc with h3 | ⟨e3, h4⟩
  · exact Or.inl (lt_trans h h3)
  · exact Or.inl (e3 ▸ h)
  · exact Or.inl (e ▸ h3)
  · exact Or.inr ⟨e.trans e3, le_trans h2 h4⟩⟩

theorem orderedInsert_qOrd (a : String × ℚ) (l : List (String × ℚ))
    (hs : l.Pairwise qOrd) (hk : ∀ b ∈ l, a.1 < b.1) :
    (List.orderedInsert valGe a l).Pairwise qOrd := by
  induction l with
  | nil => simp
  | cons y ys ih =>
    obtain ⟨hy, hys⟩ := List.pairwise_cons.mp hs
    by_cases hay : valGe a y
    · rw [List.orderedInsert, if_pos hay]
      have hqay : qOrd a y := by
        rcases lt_or_eq_of_le hay with h | h
        · exact Or.inl h
        · exact Or.inr ⟨h.symm, le_of_lt (hk y (List.mem_cons_self y ys))⟩
      refine List.pairwise_cons.mpr ⟨?_, hs⟩
      intro b hb
      rcases List.mem_cons.mp hb with rfl | hbys
      · exact hqay
      · exact qOrd_trans hqay (hy b hbys)
    · rw [List.orderedInsert, if_neg hay]
      have hya : qOrd y a := Or.inl (lt_of_not_le hay)
      refine List.pairwise_cons.mpr ⟨?_, ?_⟩
      · intro b hb
        rcases (List.mem_orderedInsert valGe).mp hb with rfl | hbys
        · exact hya
        · exact hy b hbys
      · exact ih hys (fun b hb => hk b (List.mem_cons_of_mem y hb))

theorem insertionSort_valGe_qOrd (l : List (String × ℚ))
    (h : l.Pairwise (fun a b => a.1 < b.1)) :
    (List.insertionSort valGe l).Pairwise qOrd := by
  induction l with
  | nil => simp
  | cons a l ih =>
    obtain ⟨ha, hl⟩ := List.pairwise_cons.mp h
    rw [List.insertionSort]
    apply orderedInsert_qOrd
    · exact ih hl
    · intro b hb
      exact ha b ((List.perm_insertionSort valGe l).subset hb)

theorem uniqueKeys_sorted_lt (t : List Row) (key : Row → Option String) :
    (uniqueKeys t key).Sorted (· < ·) := by
  have hs : (uniqueKeys t key).Sorted (· ≤ ·) :=
    List.sorted_insertionSort _ _
  have hn : (uniqueKeys t key).Nodup :=
    ((List.perm_insertionSort _ _).nodup_iff).mpr (List.nodup_dedup _)
  exact hs.lt_of_le hn

theorem groupby_sum_keys_lt (t : List Row) (key : Row → Option String)
    (f : Row → ℚ) :
    (groupby_sum t key f).Pairwise (fun a b => a.1 < b.1) := by
  unfold groupby_sum
  rw [List.pairwise_map]
  exact uniqueKeys_sorted_lt t key

-- ------------------------------------------------------------------
-- Claim theorems: C3, C6, C8, C10
-- ------------------------------------------------------------------

/-- Claim C3 counterexample: resampling the January/March table
monthly DOES produce an entry for February 2024 (bucket key 24289),
a bucket containing zero matching rows — pandas resample zero-fills
every calendar period between the first and the last row, so the
claimed no-entry-for-empty-buckets behaviour is false on the code. -/
theorem c3_counterexample :
    (resample_M_sum Row.totalSalesValue tbl3).map Prod.fst = [24288, 24289, 24290] ∧
    tbl3.filter (fun r => monthIdx r.date == 24289) = [] := by
  decide

/-- Claim C3 (amended): resampling is anchored to calendar periods:
every row is aggregated into the bucket of its calendar period, the
bucket of any emitted entry aggregates exactly the rows of that
period, and the emitted bucket keys are consecutive calendar periods
from the earliest to the latest row — in particular a period with no
rows between them still contributes an entry (zero-fill). The empty
table resamples to the empty result. -/
theorem c3_resample_zero_fill {α : Type} (idxOf : Row → Nat) (agg : List ℚ → α)
    (f : Row → ℚ) (t : List Row) (r : Row) (m : Nat)
    (ht : t ≠ []) (hr : r ∈ t)
    (hm : ((resampleBy idxOf agg f t).map Prod.fst).contains m = true) :
    ((resampleBy idxOf agg f t).map Prod.fst).contains (idxOf r) = true ∧
    chainB succB ((resampleBy idxOf agg f t).map Prod.fst) = true ∧
    (m, agg ((t.filter (fun x => idxOf x == m)).map f)) ∈ resampleBy idxOf agg f t := by
  match t with
  | [] => exact absurd rfl ht
  | r0 :: rs =>
    rw [resampleBy_map_fst] at hm ⊢
    have hlo_le : ∀ x ∈ (r0 :: rs).map (fun x => idxOf x),
        ((r0 :: rs).map (fun x => idxOf x)).foldl min (idxOf r0) ≤ x :=
      fun x hx => foldl_min_le_mem hx _
    have hle_hi : ∀ x ∈ (r0 :: rs).map (fun x => idxOf x),
        x ≤ ((r0 :: rs).map (fun x => idxOf x)).foldl max (idxOf r0) :=
      fun x hx => mem_le_foldl_max hx _
    have hrmem : idxOf r ∈ (r0 :: rs).map (fun x => idxOf x) :=
      List.mem_map.mpr ⟨r, hr, rfl⟩
    refine ⟨?_, chainB_succ_rangeFrom _ _, ?_⟩
    · rw [List.contains, List.elem_iff, mem_rangeFrom]
      have h1 := hlo_le _ hrmem
      have h2 := hle_hi _ hrmem
      omega
    · rw [List.contains, List.elem_iff, mem_rangeFrom] at hm
      show _ ∈ resampleBy idxOf agg f (r0 :: rs)
      rw [resampleBy]
      exact List.mem_map.mpr ⟨m, mem_rangeFrom.mpr hm, rfl⟩

/-- Claim C3 witness: in the January/March table, the first row lands
in an emitted bucket, the bucket keys are consecutive months, and the
February bucket entry aggregates exactly the (zero) February rows. -/
theorem c3_resample_zero_fill_witness :
    ((resampleBy (fun r => monthIdx r.date) aggSum Row.totalSalesValue tbl3).map
        Prod.fst).contains
      (monthIdx (mkRow ⟨2024, 1, 5⟩ (some "Tilapia") (some "A") 1 1000 600 400).date)
        = true ∧
    chainB succB
      ((resampleBy (fun r => monthIdx r.date) aggSum Row.totalSalesValue tbl3).map
        Prod.fst) = true ∧
    (24289, aggSum ((tbl3.filter (fun x => monthIdx x.date == 24289)).map
        Row.totalSalesValue)) ∈
      resampleBy (fun r => monthIdx r.date) aggSum Row.totalSalesValue tbl3 :=
  c3_resample_zero_fill (fun r => monthIdx r.date) aggSum Row.totalSalesValue tbl3
    (mkRow ⟨2024, 1, 5⟩ (some "Tilapia") (some "A") 1 1000 600 400) 24289
    (by decide) (by decide) (by decide)

/-- Claim C6 counterexample: two fish types tie at summed revenue 900,
with "B" first in the file; the claimed tie-break by original group
order would return "B", but top-1 returns "A" — `groupby` sorts the
groups by key, and `nlargest` breaks ties by position in that
key-sorted series, so ties go to the alphabetically smaller key. -/
theorem c6_counterexample :
    (top_n 1 tbl6 Row.fishType Row.totalSalesValue).map Prod.fst = ["A"] ∧
    firstSeenUniques (tbl6.filterMap Row.fishType) = ["B", "A"] ∧
    groupby_sum tbl6 Row.fishType Row.totalSalesValue = [("A", 900), ("B", 900)] := by
  have hk : uniqueKeys tbl6 Row.fishType = ["A", "B"] := by
    simp [uniqueKeys, tbl6, mkRow, List.insertionSort, List.orderedInsert,
      List.dedup_cons_of_not_mem, List.dedup_cons_of_mem] <;> decide
  have h : groupby_sum tbl6 Row.fishType Row.totalSalesValue =
      [("A", (900 : ℚ)), ("B", 900)] := by
    simp only [groupby_sum, hk]
    simp [groupRows, tbl6, mkRow, List.filter_cons]
  refine ⟨?_, by decide, h⟩
  simp only [top_n, nlargest, sortValsDesc, h]
  simp [List.insertionSort, List.orderedInsert, valGe]

/-- Claim C6 (amended): for EVERY N (also N at least the number of
groups, where the whole group list is returned), the top-N aggregation
returns min(N, number of distinct groups) entries, sorted descending
by the summed metric with ties between equal sums broken by ascending
group key (not by original group order); and whenever a group is
excluded, it sums to at most every included group. -/
theorem c6_top_n (n : Nat) (t : List Row) (key : Row → Option String)
    (f : Row → ℚ) :
    (top_n n t key f).length = min n (uniqueKeys t key).length ∧
    chainB qOrdB (top_n n t key f) = true ∧
    ∀ q, q ∈ groupby_sum t key f → q ∉ top_n n t key f →
      ∀ p, p ∈ top_n n t key f → q.2 ≤ p.2 := by
  have hG := groupby_sum_keys_lt t key f
  have hsorted : (sortValsDesc (groupby_sum t key f)).Pairwise qOrd :=
    insertionSort_valGe_qOrd _ hG
  refine ⟨?_, ?_, ?_⟩
  · show (List.take n (List.insertionSort valGe (groupby_sum t key f))).length = _
    rw [List.length_take,
      (List.perm_insertionSort valGe (groupby_sum t key f)).length_eq]
    simp only [groupby_sum, List.length_map]
  · apply chainB_of_pairwise
    have hsub : List.Sublist (top_n n t key f) (sortValsDesc (groupby_sum t key f)) :=
      List.take_sublist n _
    exact (List.Pairwise.sublist hsub hsorted).imp (fun h => qOrdB_eq_true_iff.mpr h)
  · intro q hq hnq p hp
    have hPw : (sortValsDesc (groupby_sum t key f)).Pairwise valGe :=
      List.sorted_insertionSort valGe _
    have hqS : q ∈ sortValsDesc (groupby_sum t key f) :=
      (List.perm_insertionSort valGe _).mem_iff.mpr hq
    rw [← List.take_append_drop n (sortValsDesc (groupby_sum t key f))] at hPw hqS
    rcases List.mem_append.mp hqS with hqt | hqd
    · exact absurd hqt hnq
    · exact (List.pairwise_append.mp hPw).2.2 p hp q hqd

-- Concrete evaluations backing the top-N witness.
theorem tbl6w_groups :
    groupby_sum tbl6w Row.fishType Row.totalSalesValue =
      [("A", (900 : ℚ)), ("B", 100)] := by
  have hk : uniqueKeys tbl6w Row.fishType = ["A", "B"] := by
    simp [uniqueKeys, tbl6w, mkRow, List.insertionSort, List.orderedInsert,
      List.dedup_cons_of_not_mem, List.dedup_cons_of_mem] <;> decide
  simp only [groupby_sum, hk]
  simp [groupRows, tbl6w, mkRow, List.filter_cons]

theorem tbl6w_top1 :
    top_n 1 tbl6w Row.fishType Row.totalSalesValue = [("A", (900 : ℚ))] := by
  simp only [top_n, nlargest, sortValsDesc, tbl6w_groups]
  simp [List.insertionSort, List.orderedInsert, valGe]
  norm_num

/-- Claim C6 witness: on a two-group table with distinct sums, top-1
keeps one entry, it is sorted, and the excluded group "B" (sum 100)
is at most the included group "A" (sum 900). -/
theorem c6_top_n_witness :
    (top_n 1 tbl6w Row.fishType Row.totalSalesValue).length =
      min 1 (uniqueKeys tbl6w Row.fishType).length ∧
    chainB qOrdB (top_n 1 tbl6w Row.fishType Row.totalSalesValue) = true ∧
    (("B", (100 : ℚ))).2 ≤ (("A", (900 : ℚ))).2 :=
  ⟨(c6_top_n 1 tbl6w Row.fishType Row.totalSalesValue).1,
   (c6_top_n 1 tbl6w Row.fishType Row.totalSalesValue).2.1,
   (c6_top_n 1 tbl6w Row.fishType Row.totalSalesValue).2.2 ("B", 100)
     (by rw [tbl6w_groups]; simp)
     (by rw [tbl6w_top1]; simp)
     ("A", 900)
     (by rw [tbl6w_top1]; simp)⟩

/-- Claim C8 counterexample: `describe` applied to the empty filtered
table does not return an empty result — it still reports one
statistics entry per numeric column (with count 0). -/
theorem c8_counterexample : describe ([] : List Row) ≠ [] := by decide

/-- Claim C8 (amended): on an empty filtered table every aggregation
is total and degrades: time resampling (sum and mean), categorical
sum and mean, top-N, two-level grouping and the proportion counts all
return the empty result; descriptive statistics instead returns one
entry per numeric column whose count is 0 and whose statistics are
all undefined. -/
theorem c8_empty_aggregations (f : Row → ℚ) (key : Row → Option String)
    (key2 : Row → Option (String × String)) (n : Nat) :
    resample_M_sum f [] = [] ∧
    resample_A_mean f [] = [] ∧
    groupby_sum [] key f = [] ∧
    groupby_mean [] key f = [] ∧
    top_n n [] key f = [] ∧
    groupby2_sum [] key2 f = [] ∧
    value_counts [] key = [] ∧
    describe [] = numericColumns.map (fun c => (c.1, colStats [])) ∧
    colStats [] = ⟨0, none, none, none, none, none, none, none⟩ :=
  ⟨rfl, rfl, rfl, rfl, by simp [top_n, nlargest, sortValsDesc, groupby_sum, uniqueKeys],
    rfl, rfl, rfl, rfl⟩

/-- Claim C10: the single-level group-sum and group-mean aggregations
return their groups in ascending key order, and the two-level grouping
returns its group pairs in ascending lexicographic order — the
deterministic rendering order `groupby` (sort=True) provides. -/
theorem c10_group_key_order (t : List Row) (key : Row → Option String)
    (key2 : Row → Option (String × String)) (f g h : Row → ℚ) :
    chainB keyLeB (groupby_sum t key f) = true ∧
    chainB keyLeB (groupby_mean t key g) = true ∧
    chainB pairKeyLeB (groupby2_sum t key2 h) = true := by
  refine ⟨?_, ?_, ?_⟩
  · apply chainB_of_pairwise
    rw [groupby_sum, List.pairwise_map]
    exact (List.sorted_insertionSort _ _ :
      (uniqueKeys t key).Sorted (· ≤ ·)).imp (fun hab => by simpa [keyLeB] using hab)
  · apply chainB_of_pairwise
    rw [groupby_mean, List.pairwise_map]
    exact (List.sorted_insertionSort _ _ :
      (uniqueKeys t key).Sorted (· ≤ ·)).imp (fun hab => by simpa [keyLeB] using hab)
  · apply chainB_of_pairwise
    rw [groupby2_sum, List.pairwise_map]
    exact (List.sorted_insertionSort pairKeyLe _ :
      (uniquePairKeys t key2).Sorted pairKeyLe).imp
      (fun hab => by simpa [pairKeyLeB] using hab)

-- ------------------------------------------------------------------
-- Helper lemmas for the loader claims
-- ------------------------------------------------------------------

theorem findCol_cons (c : String × Col) (cs : List (String × Col)) (n : String) :
    findCol (c :: cs) n = if c.1 = n then some c.2 else findCol cs n := by
  by_cases h : c.1 = n
  · unfold findCol
    rw [List.find?_cons_of_pos _ (by simpa using h), if_pos h]
    rfl
  · unfold findCol
    rw [List.find?_cons_of_neg _ (by simpa using h), if_neg h]

theorem idxOf_cons (a n : String) (t : List String) :
    idxOf n (a :: t) =
      if a = n then some 0 else (idxOf n t).map (fun i => i + 1) := rfl

theorem findCol_map_named (h : List String) (g : String → Col) (n : String) :
    findCol (h.map (fun m => (m, g m))) n =
      if (idxOf n h).isSome then some (g n) else none := by
  induction h with
  | nil => simp [findCol, idxOf]
  | cons a t ih =>
    rw [List.map_cons, findCol_cons]
    by_cases ha : a = n
    · subst ha
      simp [idxOf_cons]
    · rw [if_neg (by simpa using ha), ih, idxOf_cons, if_neg ha,
        Option.isSome_map']

theorem findCol_buildCols (csv : RawCSV) (n : String) :
    findCol (buildCols csv) n =
      if hasCol csv n then some (buildColFor csv n) else none := by
  unfold buildCols hasCol colIdx
  exact findCol_map_named csv.header (buildColFor csv) n

theorem findCol_map_profit (cols : List (String × Col)) (p : Col) :
    cols.any (fun c => c.1 == "Profit") = true →
    findCol (cols.map (fun c => if c.1 == "Profit" then ("Profit", p) else c))
      "Profit" = some p := by
  induction cols with
  | nil => intro h; simp at h
  | cons c cs ih =>
    intro h
    rw [List.map_cons]
    by_cases hc : c.1 = "Profit"
    · rw [if_pos (by simpa using hc), findCol_cons]
      try simp
    · rw [if_neg (by simpa using hc), findCol_cons, if_neg hc]
      apply ih
      rw [List.any_cons] at h
      simpa [hc] using h

theorem findCol_append_profit (cols : List (String × Col)) (p : Col) :
    cols.any (fun c => c.1 == "Profit") = false →
    findCol (cols ++ [("Profit", p)]) "Profit" = some p := by
  induction cols with
  | nil => intro _; simp [findCol]
  | cons c cs ih =>
    intro h
    rw [List.any_cons] at h
    simp only [Bool.or_eq_false_iff] at h
    have hc : ¬ c.1 = "Profit" := by simpa using h.1
    rw [List.cons_append, findCol_cons, if_neg hc]
    exact ih h.2

theorem findCol_setProfit_self (cols : List (String × Col)) (p : Col) :
    findCol (setProfit cols p) "Profit" = some p := by
  unfold setProfit
  by_cases h : cols.any (fun c => c.1 == "Profit") = true
  · rw [if_pos h]
    exact findCol_map_profit cols p h
  · rw [if_neg h]
    exact findCol_append_profit cols p (by revert h; cases cols.any _ <;> simp)

theorem findCol_map_profit_ne (cols : List (String × Col)) (p : Col)
    (n : String) (hn : n ≠ "Profit") :
    findCol (cols.map (fun c => if c.1 == "Profit" then ("Profit", p) else c)) n =
      findCol cols n := by
  induction cols with
  | nil => simp
  | cons c cs ih =>
    rw [List.map_cons]
    by_cases hc : c.1 = "Profit"
    · rw [if_pos (by simpa using hc), findCol_cons, findCol_cons,
        if_neg (show ¬ ("Profit", p).1 = n from fun he => hn he.symm),
        if_neg (show ¬ c.1 = n from by rw [hc]; exact fun he => hn he.symm)]
      exact ih
    · rw [if_neg (by simpa using hc), findCol_cons, findCol_cons]
      by_cases hcn : c.1 = n
      · rw [if_pos hcn, if_pos hcn]
      · rw [if_neg hcn, if_neg hcn]
        exact ih

theorem findCol_append_profit_ne (cols : List (String × Col)) (p : Col)
    (n : String) (hn : n ≠ "Profit") :
    findCol (cols ++ [("Profit", p)]) n = findCol cols n := by
  induction cols with
  | nil =>
    rw [List.nil_append, findCol_cons,
      if_neg (show ¬ ("Profit", p).1 = n from fun he => hn he.symm)]
  | cons c cs ih =>
    rw [List.cons_append, findCol_cons, findCol_cons]
    by_cases hcn : c.1 = n
    · rw [if_pos hcn, if_pos hcn]
    · rw [if_neg hcn, if_neg hcn]
      exact ih

theorem findCol_setProfit_ne (cols : List (String × Col)) (p : Col)
    (n : String) (hn : n ≠ "Profit") :
    findCol (setProfit cols p) n = findCol cols n := by
  unfold setProfit
  by_cases h : cols.any (fun c => c.1 == "Profit") = true
  · rw [if_pos h]
    exact findCol_map_profit_ne cols p n hn
  · rw [if_neg h]
    exact findCol_append_profit_ne cols p n hn

theorem findCol_filter_date (cols : List (String × Col)) (n : String)
    (hn : n ≠ "Date") :
    findCol (cols.filter (fun c => !(c.1 == "Date"))) n = findCol cols n := by
  induction cols with
  | nil => simp
  | cons c cs ih =>
    rw [List.filter_cons]
    by_cases hd : c.1 = "Date"
    · rw [if_neg (by simp [hd]), findCol_cons,
        if_neg (show ¬ c.1 = n from by rw [hd]; exact fun he => hn he.symm)]
      exact ih
    · rw [if_pos (by simpa using hd), findCol_cons, findCol_cons]
      by_cases hcn : c.1 = n
      · rw [if_pos hcn, if_pos hcn]
      · rw [if_neg hcn, if_neg hcn]
        exact ih

/-- Success characterization of the loader: on success, the three date
columns were present, the money columns parsed as numeric, the index is
the Date column and the columns are the non-Date columns with Profit
set to the elementwise difference. -/
theorem load_data_ok (csv : RawCSV) (t : LoadedTable)
    (h : load_data csv = Except.ok t) :
    (∀ n ∈ dateColNames, hasCol csv n = true) ∧
    ∃ sv cv,
      findCol (buildCols csv) salesColName = some (Col.nums sv) ∧
      findCol (buildCols csv) costColName = some (Col.nums cv) ∧
      t.index = (findCol (buildCols csv) "Date").getD (Col.strs []) ∧
      t.cols = setProfit ((buildCols csv).filter (fun c => !(c.1 == "Date")))
        (Col.nums (List.zipWith subNaN sv cv)) := by
  unfold load_data at h
  cases hfind : dateColNames.find? (fun n => !(hasCol csv n)) with
  | some n =>
    rw [hfind] at h
    exact Except.noConfusion h
  | none =>
    rw [hfind] at h
    have hall : ∀ n ∈ dateColNames, hasCol csv n = true := by
      intro n hn
      have := List.find?_eq_none.mp hfind n hn
      simpa using this
    cases hs : findCol (buildCols csv) salesColName with
    | none =>
      rw [hs] at h
      exact Except.noConfusion h
    | some sCol =>
      rw [hs] at h
      cases hc : findCol (buildCols csv) costColName with
      | none =>
        rw [hc] at h
        exact Except.noConfusion h
      | some cCol =>
        rw [hc] at h
        cases sCol with
        | dates sv => exact Except.noConfusion h
        | strs sv => exact Except.noConfusion h
        | nums sv =>
          cases cCol with
          | dates cv => exact Except.noConfusion h
          | strs cv => exact Except.noConfusion h
          | nums cv =>
            have h2 : Except.ok
                (⟨(findCol (buildCols csv) "Date").getD (Col.strs []),
                  setProfit ((buildCols csv).filter (fun c => !(c.1 == "Date")))
                    (Col.nums (List.zipWith subNaN sv cv))⟩ : LoadedTable) =
                Except.ok t := h
            injection h2 with h3
            exact ⟨hall, sv, cv, rfl, rfl, (congrArg LoadedTable.index h3).symm,
              (congrArg LoadedTable.cols h3).symm⟩

-- ------------------------------------------------------------------
-- Claim theorems: C2, C4, C9
-- ------------------------------------------------------------------

/-- Claim C2: on every successfully loaded table, the Profit column is
exactly the elementwise difference of the sales column and the cost
column of that table, recomputed at load time (any Profit column of
the input is overwritten; missing operands propagate to a missing
Profit). -/
theorem c2_profit_recomputed (csv : RawCSV) (t : LoadedTable)
    (h : load_data csv = Except.ok t) :
    ∃ sv cv,
      findCol t.cols salesColName = some (Col.nums sv) ∧
      findCol t.cols costColName = some (Col.nums cv) ∧
      findCol t.cols "Profit" = some (Col.nums (List.zipWith subNaN sv cv)) := by
  obtain ⟨hdates, sv, cv, hs, hc, hidx, hcols⟩ := load_data_ok csv t h
  refine ⟨sv, cv, ?_, ?_, ?_⟩
  · rw [hcols, findCol_setProfit_ne _ _ _ (by decide),
      findCol_filter_date _ _ (by decide)]
    exact hs
  · rw [hcols, findCol_setProfit_ne _ _ _ (by decide),
      findCol_filter_date _ _ (by decide)]
    exact hc
  · rw [hcols]
    exact findCol_setProfit_self _ _

/-- Claim C2 witness: the concrete two-row CSV loads, and its Profit
column is the elementwise difference of its sales and cost columns. -/
theorem c2_profit_recomputed_witness :
    ∃ sv cv,
      findCol tbl2.cols salesColName = some (Col.nums sv) ∧
      findCol tbl2.cols costColName = some (Col.nums cv) ∧
      findCol tbl2.cols "Profit" = some (Col.nums (List.zipWith subNaN sv cv)) :=
  c2_profit_recomputed csv2 tbl2 (by rfl)

/-- Claim C4 counterexample: a CSV whose rows are in descending date
order loads successfully into a table whose date index is NOT sorted
ascending — the loader sets the Date index without sorting, so rows
keep their file order. -/
theorem c4_counterexample :
    load_data csv4 = Except.ok tbl4 ∧ dateIndexSortedAsc tbl4 = false :=
  ⟨rfl, by decide⟩

/-- Claim C4 (amended): the loader returns the rows in original file
order — the date index of a successfully loaded table is exactly the
parse of the raw Date column in file order, with no reordering. -/
theorem c4_load_keeps_file_order (csv : RawCSV) (t : LoadedTable)
    (h : load_data csv = Except.ok t) :
    t.index = parseDatesCol (colCells csv "Date") := by
  obtain ⟨hdates, sv, cv, hs, hc, hidx, hcols⟩ := load_data_ok csv t h
  have hd : hasCol csv "Date" = true := hdates "Date" (by decide)
  rw [hidx, findCol_buildCols, if_pos hd, Option.getD_some]
  unfold buildColFor
  rw [if_pos (by decide : dateColNames.contains "Date" = true)]

/-- Claim C4 witness: the index of the concrete loaded table equals
the file-order parse of its Date column. -/
theorem c4_load_keeps_file_order_witness :
    tbl2.index = parseDatesCol (colCells csv2 "Date") :=
  c4_load_keeps_file_order csv2 tbl2 (by rfl)

/-- Claim C9 counterexample: an input whose Date cell is unparseable
as a date does NOT make the loader fail — pandas leaves the column as
raw strings, the load succeeds, and the index is the raw string
column. -/
theorem c9_counterexample :
    isOkB (load_data csv9) = true ∧
    colCells csv9 "Date" = ["notadate"] ∧
    parseDate "notadate" = none ∧
    tbl9.index = Col.strs ["notadate"] :=
  ⟨rfl, rfl, rfl, rfl⟩

/-- Claim C9 (amended): the loader fails exactly when a `parse_dates`
column (Date, Date of Sale, Restock Date) is missing or a money column
is missing or non-numeric — an unparseable date value does not fail;
every failure carries a nonempty human-readable message and yields an
error value, never a partial table; and a load never disturbs any
previously cached load result. -/
theorem c9_load_failure_modes (csv csvE : RawCSV) (err : LoadError)
    (cache : LoadCache) (e : RawCSV × Except LoadError LoadedTable)
    (herr : load_data csvE = Except.error err) (he : e ∈ cache) :
    isOkB (load_data csv) = !(loadFails csv) ∧
    err.message ≠ "" ∧
    e ∈ (cached_load cache csv).2 := by
  refine ⟨?_, ?_, ?_⟩
  · unfold load_data
    cases hfind : dateColNames.find? (fun n => !(hasCol csv n)) with
    | some n =>
      have hval := List.find?_some hfind
      have hany : dateColNames.any (fun m => !(hasCol csv m)) = true :=
        List.any_eq_true.mpr ⟨n, List.mem_of_find?_eq_some hfind, hval⟩
      simp [isOkB, loadFails, hany]
    | none =>
      have hanyF : dateColNames.any (fun m => !(hasCol csv m)) = false := by
        rw [List.any_eq_false]
        intro m hm
        have := List.find?_eq_none.mp hfind m hm
        simpa using this
      rw [findCol_buildCols, findCol_buildCols]
      by_cases hsales : hasCol csv salesColName = true
      · rw [if_pos hsales]
        by_cases hcost : hasCol csv costColName = true
        · rw [if_pos hcost]
          cases hbs : buildColFor csv salesColName with
          | nums sv =>
            cases hbc : buildColFor csv costColName with
            | nums cv =>
              simp [isOkB, loadFails, hanyF, hsales, hcost, hbs, hbc, isNumsCol]
            | dates cv =>
              simp [isOkB, loadFails, hanyF, hsales, hcost, hbs, hbc, isNumsCol]
            | strs cv =>
              simp [isOkB, loadFails, hanyF, hsales, hcost, hbs, hbc, isNumsCol]
          | dates sv =>
            simp [isOkB, loadFails, hanyF, hsales, hcost, hbs, isNumsCol]
          | strs sv =>
            simp [isOkB, loadFails, hanyF, hsales, hcost, hbs, isNumsCol]
        · have hcf : hasCol csv costColName = false := by
            revert hcost; cases hasCol csv costColName <;> simp
          rw [if_neg hcost]
          simp [isOkB, loadFails, hanyF, hsales, hcf]
      · have hsf : hasCol csv salesColName = false := by
          revert hsales; cases hasCol csv salesColName <;> simp
        rw [if_neg hsales]
        simp [isOkB, loadFails, hanyF, hsf]
  · cases err with
    | missingDateColumn nm =>
      intro hcon
      have hlen := congrArg String.length hcon
      rw [LoadError.message, String.length_append] at hlen
      have hpos :
          0 < "Error loading dataset: Missing column provided to parse_dates: ".length := by
        decide
      simp at hlen
      omega
    | missingColumn nm =>
      intro hcon
      have hlen := congrArg String.length hcon
      rw [LoadError.message, String.length_append] at hlen
      have hpos : 0 < "Error loading dataset: KeyError: ".length := by decide
      simp at hlen
      omega
    | nonNumericColumn nm =>
      intro hcon
      have hlen := congrArg String.length hcon
      rw [LoadError.message, String.length_append] at hlen
      have hpos :
          0 < "Error loading dataset: unsupported operand type in column ".length := by
        decide
      simp at hlen
      omega
  · unfold cached_load
    cases hfind : cache.find? (fun x => x.1 == csv) with
    | some x => exact he
    | none => exact List.mem_append_left _ he

/-- Claim C9 witness: the unparseable-date CSV load result matches the
failure characterization, a concrete failure message is nonempty, and
a cached earlier result survives a new load. -/
theorem c9_load_failure_modes_witness :
    isOkB (load_data csv9) = !(loadFails csv9) ∧
    (LoadError.missingDateColumn "Date").message ≠ "" ∧
    cacheEntry9 ∈ (cached_load [cacheEntry9] csv9).2 :=
  c9_load_failure_modes csv9 csvEmpty (LoadError.missingDateColumn "Date")
    [cacheEntry9] cacheEntry9 (by rfl) (List.mem_singleton.mpr rfl)

end FishStore
